import Mathlib

/-!
Verification development for the crawl engine of the SEO-Tools repository.

The definitions below are a shallow embedding of the crawler subsystem:
  - app/services/crawler/base.py        (BaseCrawler, CrawledPage, CrawlResult)
  - app/services/crawler/fast_crawler.py    (FastCrawler)
  - app/services/crawler/playwright_crawler.py  (PlaywrightCrawler)
  - app/services/nlp/language.py        (detect_language)

Modelling conventions:
  - A URL string is modelled as a structured value (scheme, host, path,
    fragment); the host component is what urllib.parse.urlparse calls netloc.
  - The HTML document handed to BeautifulSoup is modelled as the projection
    of the parse tree that the crawler actually reads: title, the meta tags,
    the first h1, the html lang attribute, the visible text after script and
    style removal, and the list of anchor elements that carry an href.
  - hashlib digests (sha256 of the URL, md5 of the text) are modelled as
    ideal collision-free fingerprints: the fingerprint of a value is the
    value itself, which is injective, the only property the code relies on.
  - The langdetect statistical classifier is an external library; it is a
    parameter (classify) of every definition that calls detect_language.
  - Network behaviour is a parameter: a World maps a URL and an attempt
    index to the outcome of that fetch attempt.  aiohttp and Playwright
    return a response object for every HTTP status code (they do not raise
    on 4xx or 5xx), so an HTTP response with any status is a success
    outcome; the failure outcome models a raised exception (timeout,
    connection error, Playwright navigation error).
-/

namespace SEOCrawl

/-- Structured model of a URL string.  host is the netloc of
urllib.parse.urlparse; the fragment is the part after the hash sign,
present or absent. -/
structure Url where
  scheme : String
  host : String
  path : String
  fragment : Option String
deriving DecidableEq, Repr

/-- Rendering of the structured URL back to the string the Python code
manipulates; used only by the extension filter of
BaseCrawler._should_crawl_url, which inspects the string suffix. -/
def Url.toUrlString (u : Url) : String :=
  u.scheme ++ "://" ++ u.host ++ u.path ++
    (match u.fragment with
     | some f => "#" ++ f
     | none => "")

/-- An href attribute value, restricted to the reference forms the crawler
meets: a full absolute URL, a host-relative path reference such as
/page#frag, and a fragment-only reference such as #frag. -/
inductive Href where
  | absolute (u : Url)
  | sitePath (path : String) (fragment : Option String)
  | fragOnly (frag : String)
deriving DecidableEq, Repr

/-- Model of urllib.parse.urljoin (Python standard library) on the href
forms above.  urljoin resolves the reference against the base URL and keeps
the fragment of the reference: Python urljoin performs no fragment
stripping, and neither crawler strips fragments anywhere else. -/
def urljoin (base : Url) : Href → Url
  | .absolute u => u
  | .sitePath p f => { scheme := base.scheme, host := base.host, path := p, fragment := f }
  | .fragOnly f => { base with fragment := some f }

/-- An anchor element with an href attribute, as returned by
soup.find_all with name a and href set; text is the raw anchor text
before stripping. -/
structure Anchor where
  href : Href
  text : String
deriving DecidableEq, Repr

/-- Projection of the BeautifulSoup parse tree read by _parse_page:
title text, meta description, meta keywords, first h1 text, the lang
attribute of the html element (none when absent), the visible text after
script and style removal (get_text with separator and strip), and the
anchors carrying an href. -/
structure Doc where
  title : Option String
  metaDescription : Option String
  metaKeywords : Option String
  h1 : Option String
  htmlLang : Option String
  bodyText : String
  anchors : List Anchor
deriving DecidableEq, Repr

/-- Ideal collision-free fingerprint standing for
hashlib.sha256(url.encode()).hexdigest(): the development relies only on
the digest being injective, so the model takes the fingerprint of a URL to
be the URL itself. -/
def sha256Fingerprint (u : Url) : Url := u

/-- Python str.lower, restricted to ASCII case folding (the URL strings the
extension filter compares are ASCII). -/
def pyLower (s : String) : String := String.mk (s.data.map Char.toLower)

/-- Python str.endswith on strings, computed over the character lists. -/
def pyEndsWith (s t : String) : Bool :=
  if t.data.length ≤ s.data.length then
    s.data.drop (s.data.length - t.data.length) == t.data
  else false

/-- Python str.strip(): remove whitespace from both ends, computed over the
character list. -/
def pyStrip (s : String) : String :=
  String.mk (((s.data.dropWhile Char.isWhitespace).reverse.dropWhile
    Char.isWhitespace).reverse)

/-- Python len(str.split()) with no separator: the number of maximal
whitespace-free runs; word_count in _parse_page is this count. -/
def pythonWordCount (s : String) : Nat :=
  (s.data.foldl
    (fun st c =>
      if c.isWhitespace then (false, st.2)
      else if st.1 then (true, st.2) else (true, st.2 + 1))
    ((false : Bool), (0 : Nat))).2

/-- The first piece of Python str.split with a dash separator, as used by
lang_from_html.split with index 0: the characters before the first dash. -/
def pySplitDashHead (s : String) : String :=
  String.mk (s.data.takeWhile (fun c => c != Char.ofNat 45))

/-- app/services/nlp/language.py detect_language: returns none when the
stripped text has fewer than 20 characters, otherwise the result of the
langdetect classifier (classify returns none where the library throws
LangDetectException). -/
def detect_language (classify : String → Option String) (text : String) : Option String :=
  if (pyStrip text).length < 20 then none
  else classify text

/-- Python truthiness of the lang attribute value: false when the
attribute is missing or its value is the empty string. -/
def langTruthy : Option String → Bool
  | none => false
  | some s => !s.data.isEmpty

/-- Language resolution of _parse_page (identical in fast_crawler.py lines
201 to 212 and playwright_crawler.py lines 331 to 340): when the html lang
attribute is falsy or longer than 5 characters, run detect_language over
the extracted text and fall back to the raw attribute value when detection
yields nothing; otherwise keep the part of the attribute before the first
dash. -/
def resolveLang (classify : String → Option String) (langFromHtml : Option String)
    (textContent : String) : Option String :=
  if !langTruthy langFromHtml || (langFromHtml.getD "").length > 5 then
    match detect_language classify textContent with
    | some d => some d
    | none => langFromHtml
  else
    match langFromHtml with
    | some l => some (pySplitDashHead l)
    | none => none

/-- One outgoing link as stored in CrawledPage.outgoing_links.  The fast
crawler appends the bare absolute URL string; the Playwright crawler
appends a dictionary with the URL and the stripped anchor text (none when
the stripped text is empty).  The two shapes coexist because Python is
dynamically typed. -/
inductive LinkOut where
  | plainUrl (url : Url)
  | withAnchor (url : Url) (anchorText : Option String)
deriving DecidableEq, Repr

/-- The target URL of an outgoing link, in either shape. -/
def LinkOut.target : LinkOut → Url
  | .plainUrl u => u
  | .withAnchor u _ => u

/-- Whether an outgoing link carries an anchor text field at all. -/
def LinkOut.carriesAnchorText : LinkOut → Bool
  | .plainUrl _ => false
  | .withAnchor _ _ => true

/-- Link extraction of FastCrawler._parse_page lines 222 to 237: resolve
every anchor href against the page URL with urljoin and keep the link when
its netloc equals the page netloc; the fast crawler records the bare
absolute URL and no anchor text. -/
def fastExtractLinks (pageUrl : Url) (anchors : List Anchor) : List LinkOut :=
  anchors.filterMap (fun a =>
    let absUrl := urljoin pageUrl a.href
    if absUrl.host = pageUrl.host then some (.plainUrl absUrl) else none)

/-- Link extraction of PlaywrightCrawler._parse_page lines 354 to 373:
same resolution and same-netloc filter, but each kept link carries the
stripped anchor text, with the empty string recorded as none. -/
def pwExtractLinks (pageUrl : Url) (anchors : List Anchor) : List LinkOut :=
  anchors.filterMap (fun a =>
    let absUrl := urljoin pageUrl a.href
    if absUrl.host = pageUrl.host then
      some (.withAnchor absUrl
        (if (pyStrip a.text).data.isEmpty then none else some (pyStrip a.text)))
    else none)

/-- CrawledPage of app/services/crawler/base.py, restricted to the fields
the verified properties read (canonical URL, hreflang map, rendered html
and the content fingerprint are carried by the code in the same way and
are omitted here; urlHash is the ideal sha256 fingerprint of the URL). -/
structure CrawledPage where
  url : Url
  urlHash : Url
  statusCode : Nat
  contentType : String
  title : Option String
  metaDescription : Option String
  metaKeywords : Option String
  h1 : Option String
  textContent : String
  wordCount : Nat
  lang : Option String
  depth : Nat
  outgoingLinks : List LinkOut
deriving DecidableEq, Repr

/-- FastCrawler._parse_page: build the CrawledPage from the fetched
document; content_type is the Content-Type response header value passed
through unchanged. -/
def fastParsePage (classify : String → Option String) (url : Url) (statusCode : Nat)
    (contentType : String) (doc : Doc) (depth : Nat) : CrawledPage :=
  { url := url
    urlHash := sha256Fingerprint url
    statusCode := statusCode
    contentType := contentType
    title := doc.title
    metaDescription := doc.metaDescription
    metaKeywords := doc.metaKeywords
    h1 := doc.h1
    textContent := doc.bodyText
    wordCount := pythonWordCount doc.bodyText
    lang := resolveLang classify doc.htmlLang doc.bodyText
    depth := depth
    outgoingLinks := fastExtractLinks url doc.anchors }

/-- PlaywrightCrawler._parse_page: same extraction over the rendered
document, except that content_type is the constant text/html (the source
comment reads: Playwright always returns HTML) and links carry anchor
text. -/
def pwParsePage (classify : String → Option String) (url : Url) (statusCode : Nat)
    (doc : Doc) (depth : Nat) : CrawledPage :=
  { url := url
    urlHash := sha256Fingerprint url
    statusCode := statusCode
    contentType := "text/html"
    title := doc.title
    metaDescription := doc.metaDescription
    metaKeywords := doc.metaKeywords
    h1 := doc.h1
    textContent := doc.bodyText
    wordCount := pythonWordCount doc.bodyText
    lang := resolveLang classify doc.htmlLang doc.bodyText
    depth := depth
    outgoingLinks := pwExtractLinks url doc.anchors }

/-- Outcome of one fetch attempt.  aiohttp session.get and Playwright
page.goto return a response object for every HTTP status code, so a
response with any status (200, 404, 500, ...) is a success outcome; the
failure outcome stands for a raised exception (timeout, connection error,
Playwright navigation error), carrying its message. -/
inductive FetchOutcome where
  | success (statusCode : Nat) (contentType : String) (doc : Doc)
  | failure (msg : String)
deriving DecidableEq, Repr

/-- Network behaviour of the outside world during one run: the outcome of
fetching a given URL on a given attempt index (0-based).  A deterministic
per-attempt map suffices because each URL is fetched by at most one task
and retries are sequential. -/
def World : Type := Url → Nat → FetchOutcome

/-- Helper for the tenacity retry wrapper: attempt index i with n retries
still allowed after it. -/
def retryFrom (w : Nat → FetchOutcome) : Nat → Nat → FetchOutcome
  | i, 0 => w i
  | i, n + 1 =>
    match w i with
    | .success st ct doc => .success st ct doc
    | .failure _ => retryFrom w (i + 1) n

/-- The tenacity decorator on _fetch_page in both crawlers:
stop_after_attempt(3), exponential backoff, reraise=True, and the default
retry condition, which retries on every raised exception.  Three attempts
total; the exception of the last attempt is reraised.  An HTTP response is
not an exception, so it is returned from the first attempt whatever its
status code: no retry is ever triggered by a status code. -/
def fetchWithRetry (w : Nat → FetchOutcome) : FetchOutcome :=
  retryFrom w 0 2

/-- One entry of the errors list built in _crawl_url: URL, depth and the
stringified exception (the timestamp carries no information the
properties read). -/
structure CrawlError where
  url : Url
  depth : Nat
  errorMsg : String
deriving DecidableEq, Repr

/-- The per-run mutable state shared by both crawlers: visited_urls,
pages and errors.  visited_urls is a Python set of strings; it is modelled
as the list of URLs in insertion order (each URL is inserted at most once,
so the list stays duplicate-free and its length is the set size used for
total_discovered). -/
structure CrawlState where
  visited : List Url
  pages : List CrawledPage
  errors : List CrawlError
deriving DecidableEq, Repr

/-- The empty state every run starts from. -/
def CrawlState.init : CrawlState := { visited := [], pages := [], errors := [] }

/-- The counters of the CrawlResult assembled at the end of crawl() in both
crawlers: total_discovered is the size of visited_urls, total_crawled the
number of accumulated pages, total_failed the number of accumulated
errors. -/
structure ResultCounters where
  totalDiscovered : Nat
  totalCrawled : Nat
  totalFailed : Nat
deriving DecidableEq, Repr

/-- CrawlResult counter assembly, fast_crawler.py lines 54 to 62 and
playwright_crawler.py lines 92 to 100. -/
def CrawlState.counters (s : CrawlState) : ResultCounters :=
  { totalDiscovered := s.visited.length
    totalCrawled := s.pages.length
    totalFailed := s.errors.length }

/-- The configuration fields of BaseCrawler read by the traversal:
start_url, max_depth and max_pages.  The politeness delay only suspends
the coroutine and does not change the crawl state, so it has no model. -/
structure CrawlConfig where
  startUrl : Url
  maxDepth : Nat
  maxPages : Nat
deriving DecidableEq, Repr

/-- The skip_extensions tuple of BaseCrawler._should_crawl_url. -/
def skipExtensions : List String :=
  [".pdf", ".jpg", ".jpeg", ".png", ".gif", ".css", ".js", ".xml", ".zip"]

/-- BaseCrawler._should_crawl_url: a structured URL is never the empty
string, so only the extension suffix check remains, applied to the
lowercased URL string. -/
def shouldCrawlUrl (u : Url) : Bool :=
  !(skipExtensions.any (fun ext => pyEndsWith (pyLower u.toUrlString) ext))

/-- The target URLs of the outgoing links of a page, in order; this is
what the traversal of either crawler iterates over (the fast crawler
stores bare URLs, so iterating the list yields the URL itself; the
Playwright crawler reads the url field of each link dictionary). -/
def CrawledPage.linkTargets (p : CrawledPage) : List Url :=
  p.outgoingLinks.map LinkOut.target

/-- Result of one PlaywrightCrawler._crawl_url call: a normal return, or
an exception escaping the call before its try block is entered.  The
guard checks at lines 197 to 211 run before the try block, and the
membership test url in self.visited_urls at line 207 raises TypeError
when the call received a link dictionary instead of a URL string, because
a dictionary is unhashable; that exception propagates to the caller. -/
inductive PwCall where
  | ok (s : CrawlState)
  | raised (s : CrawlState)
deriving DecidableEq, Repr

/-- The crawl state carried by either result. -/
def PwCall.state : PwCall → CrawlState
  | .ok s => s
  | .raised s => s

/-- The stringified TypeError recorded by the except handler of the parent
call when a child call received a link dictionary. -/
def typeErrorMsg : String := "unhashable type: dict"

section PlaywrightTraversal

variable (cfg : CrawlConfig) (classify : String → Option String) (w : World)

/-- PlaywrightCrawler._crawl_url lines 189 to 263, with the argument typed
as the value actually passed at each call site: the string start_url at
the top call, and the elements of crawled_page.outgoing_links — which for
this crawler are link dictionaries — at the recursive calls inside the
child loop (lines 242 to 247).  Guard checks run in source order (stop
flag, depth, page budget, visited, extension filter); a dictionary
argument raises TypeError at the visited-set membership test, before the
try block, so the exception escapes to the parent, whose except handler
at lines 249 to 258 appends one error entry for the parent URL and leaves
the loop.  A string argument is marked visited before its fetch; a
response appends one page and enters the child loop, a raised fetch
failure appends one error.  The loop runs each child while the page
budget has room and breaks at the first child found with the budget full;
the accumulator flag marks that the loop has stopped (by budget or by the
handled exception).  The stop flag stays false for a run that is never
cancelled.  The fuel argument only bounds the recursion depth of the
model; a run that terminates is unchanged by any sufficiently large
fuel. -/
def pwCrawlUrl : Nat → LinkOut → Nat → CrawlState → PwCall
  | 0, _, _, s => .ok s
  | fuel + 1, urlv, depth, s =>
    if depth > cfg.maxDepth then .ok s
    else if s.pages.length ≥ cfg.maxPages then .ok s
    else
      match urlv with
      | .withAnchor _ _ => .raised s
      | .plainUrl url =>
        if url ∈ s.visited then .ok s
        else if !shouldCrawlUrl url then .ok s
        else
          let s1 : CrawlState := { s with visited := s.visited ++ [url] }
          match fetchWithRetry (w url) with
          | .failure msg => .ok { s1 with errors := s1.errors ++ [⟨url, depth, msg⟩] }
          | .success st _ doc =>
            let page := pwParsePage classify url st doc depth
            let s2 : CrawlState := { s1 with pages := s1.pages ++ [page] }
            if depth < cfg.maxDepth then
              .ok (((page.outgoingLinks.take 10).foldl
                (fun acc l =>
                  if acc.2 then acc
                  else if acc.1.pages.length < cfg.maxPages then
                    match pwCrawlUrl fuel l (depth + 1) acc.1 with
                    | .ok s' => (s', false)
                    | .raised s' =>
                      ({ s' with errors := s'.errors ++ [⟨url, depth, typeErrorMsg⟩] }, true)
                  else (acc.1, true))
                (s2, false)).1)
            else .ok s2

/-- A whole Playwright run: PlaywrightCrawler.crawl seeds the recursion
with the string start_url at depth 0 over the empty state; the top call
cannot raise, so the run state is the carried state either way. -/
def runPw (fuel : Nat) : CrawlState :=
  (pwCrawlUrl cfg classify w fuel (LinkOut.plainUrl cfg.startUrl) 0 CrawlState.init).state

end PlaywrightTraversal

/-- One coroutine created by FastCrawler._crawl_url, at one of its two
observable stages.  A pending task has not yet run its synchronous prefix
(the guard checks and the visited-set insertion); an inflight task has run
that prefix and is suspended awaiting its fetch.  The prefix runs without
an intervening await (the politeness sleep comes after the insertion), so
it is atomic under the asyncio event loop, and so is the resumption from
the fetch await up to the gather await: those two blocks are the steps of
the machine below. -/
inductive FastTask where
  | pending (url : Url) (depth : Nat)
  | inflight (url : Url) (depth : Nat)
deriving DecidableEq, Repr

/-- State of one FastCrawler run: the bag of live coroutines plus the
shared CrawlState.  Parent coroutines blocked on asyncio.gather are not
tracked: nothing in _crawl_url runs after the gather returns, so a parent
is dropped when it spawns its children. -/
structure FastState where
  tasks : List FastTask
  crawl : CrawlState
deriving DecidableEq, Repr

/-- A run starts with the single coroutine _crawl_url(start_url, 0) over
the empty shared state (fast_crawler.py line 50). -/
def FastState.init (cfg : CrawlConfig) : FastState :=
  { tasks := [FastTask.pending cfg.startUrl 0], crawl := CrawlState.init }

/-- The synchronous prefix of _crawl_url, lines 108 to 129: guard checks
in source order (stop flag, depth, page budget, visited set, extension
filter) and, when all pass, insertion into visited_urls before the fetch
is dispatched; the stop flag stays false for a run that is never
cancelled. -/
def fastStart (cfg : CrawlConfig) (s : FastState) (url : Url) (depth : Nat)
    (rest : List FastTask) : FastState :=
  if depth > cfg.maxDepth then { s with tasks := rest }
  else if s.crawl.pages.length ≥ cfg.maxPages then { s with tasks := rest }
  else if url ∈ s.crawl.visited then { s with tasks := rest }
  else if !shouldCrawlUrl url then { s with tasks := rest }
  else
    { tasks := rest ++ [FastTask.inflight url depth]
      crawl := { s.crawl with visited := s.crawl.visited ++ [url] } }

/-- The resumption of _crawl_url after its fetch, lines 131 to 158: on a
response, parse the page, append it to pages, and when depth < max_depth
spawn one child coroutine per outgoing link provided the page budget still
has room (the budget check inside the spawning loop reads a length that
does not change during the loop), of which asyncio.gather runs only the
first 10; on a raised exception, append one error entry.  Either way the
finished coroutine leaves the bag. -/
def fastFinish (cfg : CrawlConfig) (classify : String → Option String) (w : World)
    (s : FastState) (url : Url) (depth : Nat) (rest : List FastTask) : FastState :=
  match fetchWithRetry (w url) with
  | .failure msg =>
    { tasks := rest
      crawl := { s.crawl with errors := s.crawl.errors ++ [⟨url, depth, msg⟩] } }
  | .success st ct doc =>
    let page := fastParsePage classify url st ct doc depth
    let pages1 := s.crawl.pages ++ [page]
    let children :=
      if depth < cfg.maxDepth ∧ pages1.length < cfg.maxPages then
        (page.linkTargets.take 10).map (fun u => FastTask.pending u (depth + 1))
      else []
    { tasks := rest ++ children
      crawl := { s.crawl with pages := pages1 } }

/-- One scheduling step: the event loop resumes the named coroutine, which
then runs one atomic block.  A name not present in the bag is a stutter
step.  The relation over-approximates the schedules asyncio can produce:
every real interleaving of the two atomic blocks is a sequence of these
steps, and the concrete schedules used below are ones the event loop
realizes when fetch completions arrive in dispatch order. -/
def fastStep (cfg : CrawlConfig) (classify : String → Option String) (w : World)
    (s : FastState) (t : FastTask) : FastState :=
  if t ∈ s.tasks then
    match t with
    | .pending url depth => fastStart cfg s url depth (s.tasks.erase t)
    | .inflight url depth => fastFinish cfg classify w s url depth (s.tasks.erase t)
  else s

/-- Run the machine under an explicit schedule. -/
def runFast (cfg : CrawlConfig) (classify : String → Option String) (w : World)
    (sched : List FastTask) : FastState :=
  sched.foldl (fastStep cfg classify w) (FastState.init cfg)

/-! Resource lifecycle of the two crawl() entry points.

The traces below are direct transcriptions of the try/except/finally
structure of FastCrawler.crawl (fast_crawler.py lines 32 to 69, with
stop() at lines 71 to 75) and PlaywrightCrawler.crawl
(playwright_crawler.py lines 51 to 109, with stop() at lines 111 to 117):
each constructor names one control-flow path through crawl(), and its
trace lists the acquisition and close calls that path performs in
order. -/

/-- Resource acquisition and release events. -/
inductive ResEvent where
  | sessionOpen
  | sessionClose
  | browserLaunch
  | browserClose
  | contextOpen
  | contextClose
deriving DecidableEq, Repr

/-- Control-flow paths through FastCrawler.crawl.  Per-page failures are
caught inside _crawl_url and do not alter the path, so sessionOk covers
every run whose session was created and that was not stopped; a stopped
run has stop() close the session once before the finally block of crawl()
closes it again. -/
inductive FastRunPath where
  | sessionCreateFails
  | sessionOk
  | stopped
deriving DecidableEq, Repr

/-- The session events of one FastCrawler run on each path.  When the
aiohttp.ClientSession constructor raises, self.session is still None and
the finally block closes nothing. -/
def fastCrawlTrace : FastRunPath → List ResEvent
  | .sessionCreateFails => []
  | .sessionOk => [.sessionOpen, .sessionClose]
  | .stopped => [.sessionOpen, .sessionClose, .sessionClose]

/-- Control-flow paths through PlaywrightCrawler.crawl.  On the success
path the try block itself closes context and browser at lines 87 to 88,
and the finally block at lines 105 to 109 closes both again because
self.context and self.browser still hold the closed objects; launchFails
leaves both attributes None, contextCreateFails leaves only the browser
set; a stopped run adds the close pair performed by stop(). -/
inductive PwRunPath where
  | launchFails
  | contextCreateFails
  | runOk
  | stopped
deriving DecidableEq, Repr

/-- The browser and context events of one PlaywrightCrawler run on each
path. -/
def pwCrawlTrace : PwRunPath → List ResEvent
  | .launchFails => []
  | .contextCreateFails => [.browserLaunch, .browserClose]
  | .runOk =>
    [.browserLaunch, .contextOpen, .contextClose, .browserClose, .contextClose, .browserClose]
  | .stopped =>
    [.browserLaunch, .contextOpen, .contextClose, .browserClose,
     .contextClose, .browserClose, .contextClose, .browserClose]

/-! Invariants of the shared crawl state. -/

/-- The URLs of the accumulated pages, in order. -/
def CrawlState.pageUrls (s : CrawlState) : List Url := s.pages.map CrawledPage.url

/-- The URLs of the accumulated errors, in order. -/
def CrawlState.errorUrls (s : CrawlState) : List Url := s.errors.map CrawlError.url

/-- The URL of an inflight task, none for a pending one. -/
def FastTask.inflightUrl? : FastTask → Option Url
  | .inflight u _ => some u
  | .pending _ _ => none

/-- The URLs whose fetch has been dispatched and not yet resolved. -/
def FastState.inflightUrls (s : FastState) : List Url :=
  s.tasks.filterMap FastTask.inflightUrl?

/-- Every URL that has been claimed by some coroutine: it already produced
a page, or already produced an error, or its fetch is inflight.  The
mark-before-dispatch rule keeps this list duplicate-free. -/
def FastState.claimedUrls (s : FastState) : List Url :=
  s.crawl.pageUrls ++ s.crawl.errorUrls ++ s.inflightUrls

/-- The inductive invariant of the fast-crawler step machine: claimed URLs
are pairwise distinct and all visited, the visited set is duplicate-free,
page depths and inflight depths are bounded by max_depth, and every page
stores the fingerprint of its own URL. -/
structure FastInv (cfg : CrawlConfig) (s : FastState) : Prop where
  claimedNodup : s.claimedUrls.Nodup
  claimedSub : ∀ u ∈ s.claimedUrls, u ∈ s.crawl.visited
  visitedNodup : s.crawl.visited.Nodup
  pagesDepth : ∀ p ∈ s.crawl.pages, p.depth ≤ cfg.maxDepth
  pagesHash : ∀ p ∈ s.crawl.pages, p.urlHash = sha256Fingerprint p.url
  inflightDepth : ∀ u d, FastTask.inflight u d ∈ s.tasks → d ≤ cfg.maxDepth

/-- The inductive invariant of the sequential Playwright traversal: pages
have pairwise distinct and visited URLs, visited is duplicate-free, page
depths are bounded by max_depth, the page count is bounded by max_pages,
and every page stores the fingerprint of its own URL.  No uniqueness is
stated across pages and errors together: the except handler of a parent
call records an error for a URL that already has a page when a child call
raises (see the C6 theorem). -/
structure PwInv (cfg : CrawlConfig) (s : CrawlState) : Prop where
  pagesNodup : s.pageUrls.Nodup
  pagesSub : ∀ u ∈ s.pageUrls, u ∈ s.visited
  visitedNodup : s.visited.Nodup
  pagesDepth : ∀ p ∈ s.pages, p.depth ≤ cfg.maxDepth
  pagesHash : ∀ p ∈ s.pages, p.urlHash = sha256Fingerprint p.url
  pagesCount : s.pages.length ≤ cfg.maxPages

/-! Concrete site, network behaviour and schedules used to exercise the
model on closed inputs. -/

/-- The start URL of the concrete runs. -/
def exHome : Url := ⟨"http", "ex.com", "/", none⟩

/-- Two plain child URLs on the same host. -/
def exA : Url := ⟨"http", "ex.com", "/a", none⟩

def exB : Url := ⟨"http", "ex.com", "/b", none⟩

/-- The same path reached under two different fragments. -/
def exPA : Url := ⟨"http", "ex.com", "/p", some "a"⟩

def exPB : Url := ⟨"http", "ex.com", "/p", some "b"⟩

/-- A document with no metadata, no text and no links. -/
def emptyDoc : Doc := ⟨none, none, none, none, none, "", []⟩

/-- A root document linking to /a and /b. -/
def rootDoc : Doc :=
  { emptyDoc with anchors := [⟨Href.sitePath "/a" none, "A"⟩, ⟨Href.sitePath "/b" none, "B"⟩] }

/-- A root document linking twice to the path /p, under fragment a and
under fragment b. -/
def fragDoc : Doc :=
  { emptyDoc with anchors :=
      [⟨Href.sitePath "/p" (some "a"), "first"⟩, ⟨Href.sitePath "/p" (some "b"), "second"⟩] }

/-- A classifier that never detects anything. -/
def classifyNone : String → Option String := fun _ => none

/-- Every fetch responds 200 with rootDoc at the start URL and emptyDoc
elsewhere. -/
def exWorld : World := fun u _ =>
  if u = exHome then FetchOutcome.success 200 "text/html" rootDoc
  else FetchOutcome.success 200 "text/html" emptyDoc

/-- Same site with the fragment-linking root document. -/
def fragWorld : World := fun u _ =>
  if u = exHome then FetchOutcome.success 200 "text/html" fragDoc
  else FetchOutcome.success 200 "text/html" emptyDoc

/-- The root responds, /a raises on every attempt, /b responds. -/
def exWorldFail : World := fun u _ =>
  if u = exHome then FetchOutcome.success 200 "text/html" rootDoc
  else if u = exA then FetchOutcome.failure "connection reset"
  else FetchOutcome.success 200 "text/html" emptyDoc

/-- Every fetch of every URL responds with HTTP status 500 on every
attempt (the scenario of a server answering 500 throughout). -/
def world500 : World := fun _ _ => FetchOutcome.success 500 "text/html" emptyDoc

/-- The first attempt responds 404; later attempts would raise, so a retry
after the 404 response would be observable in the run outcome. -/
def world404 : World := fun _ i =>
  if i = 0 then FetchOutcome.success 404 "text/html" emptyDoc
  else FetchOutcome.failure "retry happened"

/-- max_depth 1 and max_pages 2: a budget the concurrent machine can
overshoot. -/
def exCfg : CrawlConfig := ⟨exHome, 1, 2⟩

/-- max_depth 1 with an ample page budget. -/
def exCfg10 : CrawlConfig := ⟨exHome, 1, 10⟩

/-- The schedule the asyncio event loop produces when both child fetches
complete after both were dispatched (all fetches resolve in dispatch
order): the root runs to completion, the gather starts both children up to
their fetch awaits, then each child resumes and appends its page. -/
def exSched : List FastTask :=
  [FastTask.pending exHome 0, FastTask.inflight exHome 0,
   FastTask.pending exA 1, FastTask.pending exB 1,
   FastTask.inflight exA 1, FastTask.inflight exB 1]

/-- The same shape of schedule for the fragment site. -/
def fragSched : List FastTask :=
  [FastTask.pending exHome 0, FastTask.inflight exHome 0,
   FastTask.pending exPA 1, FastTask.pending exPB 1,
   FastTask.inflight exPA 1, FastTask.inflight exPB 1]

/-- A run that only processes the start URL. -/
def rootSched : List FastTask :=
  [FastTask.pending exHome 0, FastTask.inflight exHome 0]


theorem nodup_append_singleton {α : Type} {l : List α} {a : α}
    (h : l.Nodup) (ha : a ∉ l) : (l ++ [a]).Nodup := by
  rw [List.nodup_append]
  refine ⟨h, List.nodup_singleton a, ?_⟩
  intro x hx hx'
  rw [List.mem_singleton] at hx'
  exact ha (hx' ▸ hx)

/-- Shrinking the task bag (while keeping the shared state) preserves the
invariant. -/
theorem FastInv.ofTasksSublist {cfg : CrawlConfig} {tasks tasks' : List FastTask}
    {c : CrawlState} (h : FastInv cfg ⟨tasks, c⟩) (hs : List.Sublist tasks' tasks) :
    FastInv cfg ⟨tasks', c⟩ := by
  have hsub : List.Sublist (FastState.inflightUrls ⟨tasks', c⟩) (FastState.inflightUrls ⟨tasks, c⟩) :=
    hs.filterMap _
  have hclaimed : List.Sublist (FastState.claimedUrls ⟨tasks', c⟩) (FastState.claimedUrls ⟨tasks, c⟩) := by
    unfold FastState.claimedUrls
    exact (hsub.append_left _)
  refine ⟨h.claimedNodup.sublist hclaimed, ?_, h.visitedNodup, h.pagesDepth, h.pagesHash, ?_⟩
  · intro u hu
    exact h.claimedSub u (hclaimed.subset hu)
  · intro u d hd
    exact h.inflightDepth u d (hs.subset hd)

theorem fastStart_inv {cfg : CrawlConfig} {s : FastState} {url : Url} {depth : Nat}
    (h : FastInv cfg s) (ht : FastTask.pending url depth ∈ s.tasks) :
    FastInv cfg (fastStart cfg s url depth (s.tasks.erase (FastTask.pending url depth))) := by
  have herase : List.Sublist (s.tasks.erase (FastTask.pending url depth)) s.tasks :=
    List.erase_sublist _ _
  have hrest : FastInv cfg ⟨s.tasks.erase (FastTask.pending url depth), s.crawl⟩ :=
    h.ofTasksSublist herase
  unfold fastStart
  split
  · exact hrest
  split
  · exact hrest
  split
  · exact hrest
  split
  · exact hrest
  rename_i hdepth hpages hvis hshould
  have hdepth' : depth ≤ cfg.maxDepth := Nat.le_of_not_lt hdepth
  have hnodupRest : (s.crawl.pageUrls ++ s.crawl.errorUrls ++
      (s.tasks.erase (FastTask.pending url depth)).filterMap FastTask.inflightUrl?).Nodup :=
    hrest.claimedNodup
  have hsubRest : ∀ u ∈ s.crawl.pageUrls ++ s.crawl.errorUrls ++
      (s.tasks.erase (FastTask.pending url depth)).filterMap FastTask.inflightUrl?,
      u ∈ s.crawl.visited := hrest.claimedSub
  have hfresh : url ∉ s.crawl.pageUrls ++ s.crawl.errorUrls ++
      (s.tasks.erase (FastTask.pending url depth)).filterMap FastTask.inflightUrl? :=
    fun hmem => hvis (hsubRest url hmem)
  have hsingle : List.filterMap FastTask.inflightUrl? [FastTask.inflight url depth] = [url] := rfl
  refine ⟨?_, ?_, ?_, h.pagesDepth, h.pagesHash, ?_⟩
  · show (s.crawl.pageUrls ++ s.crawl.errorUrls ++
      ((s.tasks.erase (FastTask.pending url depth)) ++
        [FastTask.inflight url depth]).filterMap FastTask.inflightUrl?).Nodup
    rw [List.filterMap_append, hsingle]
    have := nodup_append_singleton hnodupRest hfresh
    simpa [List.append_assoc] using this
  · show ∀ u ∈ s.crawl.pageUrls ++ s.crawl.errorUrls ++
      ((s.tasks.erase (FastTask.pending url depth)) ++
        [FastTask.inflight url depth]).filterMap FastTask.inflightUrl?,
      u ∈ s.crawl.visited ++ [url]
    rw [List.filterMap_append, hsingle]
    intro u hu
    simp only [List.mem_append, List.mem_singleton] at hu
    rcases hu with (hu | hu) | hu | hu
    · exact List.mem_append_left _
        (hsubRest u (List.mem_append_left _ (List.mem_append_left _ hu)))
    · exact List.mem_append_left _
        (hsubRest u (List.mem_append_left _ (List.mem_append_right _ hu)))
    · exact List.mem_append_left _ (hsubRest u (List.mem_append_right _ hu))
    · subst hu
      exact List.mem_append_right _ (List.mem_singleton_self u)
  · exact nodup_append_singleton h.visitedNodup hvis
  · intro u d hd
    simp only [List.mem_append, List.mem_singleton] at hd
    rcases hd with hd | hd
    · exact h.inflightDepth u d (herase.subset hd)
    · cases hd
      exact hdepth'

theorem filterMap_pending_children (l : List Url) (d : Nat) :
    (l.map (fun u => FastTask.pending u d)).filterMap FastTask.inflightUrl? = [] := by
  induction l with
  | nil => rfl
  | cons a t ih => simpa [List.filterMap_cons, FastTask.inflightUrl?] using ih

theorem filterMap_children (c : Prop) [Decidable c] (l : List Url) (d : Nat) :
    (if c then l.map (fun u => FastTask.pending u d) else []).filterMap
      FastTask.inflightUrl? = [] := by
  split
  · exact filterMap_pending_children l d
  · rfl

theorem inflight_notMem_children (c : Prop) [Decidable c] (l : List Url) (d : Nat)
    (u' : Url) (d' : Nat) :
    FastTask.inflight u' d' ∉ (if c then l.map (fun u => FastTask.pending u d) else []) := by
  split
  · simp [List.mem_map]
  · simp

theorem nodup_insert_last {α : Type} {P E Rf : List α} {u : α}
    (h : (u :: ((P ++ E) ++ Rf)).Nodup) : ((P ++ (E ++ [u])) ++ Rf).Nodup := by
  have p1 : List.Perm ((P ++ (E ++ [u])) ++ Rf) ((u :: (P ++ E)) ++ Rf) :=
    (((List.perm_append_singleton u E).append_left P).trans List.perm_middle).append_right Rf
  exact p1.nodup_iff.mpr (by simpa using h)

theorem nodup_insert_first {α : Type} {P E Rf : List α} {u : α}
    (h : (u :: ((P ++ E) ++ Rf)).Nodup) : (((P ++ [u]) ++ E) ++ Rf).Nodup := by
  have p1 : List.Perm (((P ++ [u]) ++ E) ++ Rf) ((u :: (P ++ E)) ++ Rf) := by
    have h2 : List.Perm ((P ++ [u]) ++ E) (u :: (P ++ E)) := by
      have := (List.perm_append_singleton u P).append_right E
      simpa using this
    exact h2.append_right Rf
  exact p1.nodup_iff.mpr (by simpa using h)

@[simp] theorem fastParsePage_url (classify : String → Option String) (url : Url)
    (st : Nat) (ct : String) (doc : Doc) (depth : Nat) :
    (fastParsePage classify url st ct doc depth).url = url := rfl

@[simp] theorem fastParsePage_depth (classify : String → Option String) (url : Url)
    (st : Nat) (ct : String) (doc : Doc) (depth : Nat) :
    (fastParsePage classify url st ct doc depth).depth = depth := rfl

@[simp] theorem fastParsePage_urlHash (classify : String → Option String) (url : Url)
    (st : Nat) (ct : String) (doc : Doc) (depth : Nat) :
    (fastParsePage classify url st ct doc depth).urlHash = sha256Fingerprint url := rfl

theorem fastFinish_inv {cfg : CrawlConfig} {classify : String → Option String} {w : World}
    {s : FastState} {url : Url} {depth : Nat}
    (h : FastInv cfg s) (ht : FastTask.inflight url depth ∈ s.tasks) :
    FastInv cfg (fastFinish cfg classify w s url depth
      (s.tasks.erase (FastTask.inflight url depth))) := by
  have herase : List.Sublist (s.tasks.erase (FastTask.inflight url depth)) s.tasks :=
    List.erase_sublist _ _
  have hdepth' : depth ≤ cfg.maxDepth := h.inflightDepth url depth ht
  have hpermI : List.Perm (s.tasks.filterMap FastTask.inflightUrl?)
      (url :: (s.tasks.erase (FastTask.inflight url depth)).filterMap FastTask.inflightUrl?) := by
    simpa [List.filterMap_cons, FastTask.inflightUrl?] using
      (List.perm_cons_erase ht).filterMap FastTask.inflightUrl?
  have h1 : ((s.crawl.pageUrls ++ s.crawl.errorUrls) ++
      (url :: (s.tasks.erase (FastTask.inflight url depth)).filterMap
        FastTask.inflightUrl?)).Nodup :=
    (hpermI.append_left (s.crawl.pageUrls ++ s.crawl.errorUrls)).nodup_iff.mp h.claimedNodup
  have hcons : (url :: ((s.crawl.pageUrls ++ s.crawl.errorUrls) ++
      (s.tasks.erase (FastTask.inflight url depth)).filterMap FastTask.inflightUrl?)).Nodup :=
    List.perm_middle.nodup_iff.mp h1
  have hUrlVisited : url ∈ s.crawl.visited :=
    h.claimedSub url
      (List.mem_append_right _ (hpermI.mem_iff.mpr (List.mem_cons_self url _)))
  have hmemVisited : ∀ u' : Url,
      u' ∈ s.crawl.pageUrls ∨ u' ∈ s.crawl.errorUrls ∨
        u' ∈ (s.tasks.erase (FastTask.inflight url depth)).filterMap FastTask.inflightUrl? ∨
        u' = url →
      u' ∈ s.crawl.visited := by
    intro u' hu
    rcases hu with hu | hu | hu | hu
    · exact h.claimedSub u' (List.mem_append_left _ (List.mem_append_left _ hu))
    · exact h.claimedSub u' (List.mem_append_left _ (List.mem_append_right _ hu))
    · exact h.claimedSub u'
        (List.mem_append_right _ (hpermI.mem_iff.mpr (List.mem_cons_of_mem _ hu)))
    · exact hu ▸ hUrlVisited
  unfold fastFinish
  split
  · -- raised exception after all retries: one error entry is appended
    refine ⟨?_, ?_, h.visitedNodup, h.pagesDepth, h.pagesHash, ?_⟩
    · show (FastState.claimedUrls _).Nodup
      simp only [FastState.claimedUrls, FastState.inflightUrls, CrawlState.pageUrls,
        CrawlState.errorUrls, List.map_append, List.map_cons, List.map_nil]
      exact nodup_insert_last hcons
    · intro u' hu
      show u' ∈ s.crawl.visited
      simp only [FastState.claimedUrls, FastState.inflightUrls, CrawlState.pageUrls,
        CrawlState.errorUrls, List.map_append, List.map_cons, List.map_nil,
        List.mem_append, List.mem_singleton] at hu
      exact hmemVisited u' (by tauto)
    · intro u' d' hd
      exact h.inflightDepth u' d' (herase.subset hd)
  · -- a response: one page is appended and pending children are spawned
    refine ⟨?_, ?_, h.visitedNodup, ?_, ?_, ?_⟩
    · show (FastState.claimedUrls _).Nodup
      simp only [FastState.claimedUrls, FastState.inflightUrls, CrawlState.pageUrls,
        CrawlState.errorUrls, List.map_append, List.map_cons, List.map_nil,
        List.filterMap_append, filterMap_children, List.append_nil, fastParsePage_url]
      exact nodup_insert_first hcons
    · intro u' hu
      show u' ∈ s.crawl.visited
      simp only [FastState.claimedUrls, FastState.inflightUrls, CrawlState.pageUrls,
        CrawlState.errorUrls, List.map_append, List.map_cons, List.map_nil,
        List.filterMap_append, filterMap_children, List.append_nil, fastParsePage_url,
        List.mem_append, List.mem_singleton] at hu
      exact hmemVisited u' (by tauto)
    · intro p hp
      simp only [List.mem_append, List.mem_singleton] at hp
      rcases hp with hp | hp
      · exact h.pagesDepth p hp
      · subst hp
        exact hdepth'
    · intro p hp
      simp only [List.mem_append, List.mem_singleton] at hp
      rcases hp with hp | hp
      · exact h.pagesHash p hp
      · subst hp
        rfl
    · intro u' d' hd
      simp only [List.mem_append] at hd
      rcases hd with hd | hd
      · exact h.inflightDepth u' d' (herase.subset hd)
      · exact absurd hd (inflight_notMem_children _ _ _ u' d')

theorem fastStep_inv (cfg : CrawlConfig) (classify : String → Option String) (w : World)
    {s : FastState} (t : FastTask) (h : FastInv cfg s) :
    FastInv cfg (fastStep cfg classify w s t) := by
  unfold fastStep
  split
  · rename_i hmem
    cases t with
    | pending url depth => exact fastStart_inv h hmem
    | inflight url depth => exact fastFinish_inv h hmem
  · exact h

theorem fastInit_inv (cfg : CrawlConfig) : FastInv cfg (FastState.init cfg) := by
  refine ⟨?_, ?_, ?_, ?_, ?_, ?_⟩ <;>
    simp [FastState.init, CrawlState.init, FastState.claimedUrls, FastState.inflightUrls,
      CrawlState.pageUrls, CrawlState.errorUrls, FastTask.inflightUrl?, List.filterMap]

theorem fastFoldl_inv (cfg : CrawlConfig) (classify : String → Option String) (w : World) :
    ∀ (sched : List FastTask) (s : FastState), FastInv cfg s →
      FastInv cfg (sched.foldl (fastStep cfg classify w) s)
  | [], _, h => h
  | t :: rest, s, h =>
    fastFoldl_inv cfg classify w rest (fastStep cfg classify w s t)
      (fastStep_inv cfg classify w t h)

theorem runFast_inv (cfg : CrawlConfig) (classify : String → Option String) (w : World)
    (sched : List FastTask) : FastInv cfg (runFast cfg classify w sched) :=
  fastFoldl_inv cfg classify w sched (FastState.init cfg) (fastInit_inv cfg)

/-! Invariant of the sequential Playwright traversal. -/

@[simp] theorem pwParsePage_url (classify : String → Option String) (url : Url)
    (st : Nat) (doc : Doc) (depth : Nat) :
    (pwParsePage classify url st doc depth).url = url := rfl

@[simp] theorem pwParsePage_depth (classify : String → Option String) (url : Url)
    (st : Nat) (doc : Doc) (depth : Nat) :
    (pwParsePage classify url st doc depth).depth = depth := rfl

@[simp] theorem pwParsePage_urlHash (classify : String → Option String) (url : Url)
    (st : Nat) (doc : Doc) (depth : Nat) :
    (pwParsePage classify url st doc depth).urlHash = sha256Fingerprint url := rfl

theorem nodup_insert_snd {α : Type} {P E : List α} {u : α}
    (h : (P ++ E).Nodup) (hu : u ∉ P ++ E) : (P ++ (E ++ [u])).Nodup := by
  rw [show P ++ (E ++ [u]) = (P ++ E) ++ [u] from (List.append_assoc P E [u]).symm]
  exact nodup_append_singleton h hu

theorem nodup_insert_fst {α : Type} {P E : List α} {u : α}
    (h : (P ++ E).Nodup) (hu : u ∉ P ++ E) : ((P ++ [u]) ++ E).Nodup := by
  have hperm : List.Perm ((P ++ [u]) ++ E) (u :: (P ++ E)) := by
    have := (List.perm_append_singleton u P).append_right E
    simpa using this
  exact hperm.nodup_iff.mpr (List.nodup_cons.mpr ⟨hu, h⟩)

theorem PwInv.errorsAppend {cfg : CrawlConfig} {s : CrawlState} (h : PwInv cfg s)
    (es : List CrawlError) : PwInv cfg { s with errors := s.errors ++ es } :=
  ⟨h.pagesNodup, h.pagesSub, h.visitedNodup, h.pagesDepth, h.pagesHash, h.pagesCount⟩

theorem foldl_pwinv (cfg : CrawlConfig)
    {f : CrawlState × Bool → LinkOut → CrawlState × Bool}
    (hf : ∀ acc l, PwInv cfg acc.1 → PwInv cfg (f acc l).1) :
    ∀ (ls : List LinkOut) (acc : CrawlState × Bool),
      PwInv cfg acc.1 → PwInv cfg (ls.foldl f acc).1
  | [], _, h => h
  | l :: rest, acc, h => foldl_pwinv cfg hf rest (f acc l) (hf acc l h)

theorem pwCrawlUrl_inv (cfg : CrawlConfig) (classify : String → Option String) (w : World) :
    ∀ (fuel : Nat) (urlv : LinkOut) (depth : Nat) (s : CrawlState),
      PwInv cfg s → PwInv cfg (pwCrawlUrl cfg classify w fuel urlv depth s).state := by
  intro fuel
  induction fuel with
  | zero =>
    intro urlv depth s h
    exact h
  | succ n ih =>
    intro urlv depth s h
    simp only [pwCrawlUrl]
    split
    · exact h
    rename_i hdepth
    split
    · exact h
    rename_i hpages
    have hdepth' : depth ≤ cfg.maxDepth := Nat.le_of_not_lt hdepth
    have hpages' : s.pages.length < cfg.maxPages := Nat.lt_of_not_le hpages
    split
    · exact h
    rename_i url
    split
    · exact h
    rename_i hvis
    split
    · exact h
    rename_i hshould
    have hfresh : url ∉ s.pageUrls := fun hmem => hvis (h.pagesSub url hmem)
    split
    · -- raised exception after all retries: one error entry is appended
      exact ⟨h.pagesNodup, fun u' hu => List.mem_append_left _ (h.pagesSub u' hu),
        nodup_append_singleton h.visitedNodup hvis, h.pagesDepth, h.pagesHash, h.pagesCount⟩
    · -- a response: one page is appended, then the child loop runs
      rename_i st ct doc heq
      have h2 : PwInv cfg
          { visited := s.visited ++ [url]
            pages := s.pages ++ [pwParsePage classify url st doc depth]
            errors := s.errors } := by
        refine ⟨?_, ?_, nodup_append_singleton h.visitedNodup hvis, ?_, ?_, ?_⟩
        · simp only [CrawlState.pageUrls, List.map_append, List.map_cons, List.map_nil,
            pwParsePage_url]
          exact nodup_append_singleton h.pagesNodup hfresh
        · intro u' hu
          simp only [CrawlState.pageUrls, List.map_append, List.map_cons, List.map_nil,
            pwParsePage_url, List.mem_append, List.mem_singleton] at hu ⊢
          rcases hu with hu | hu
          · exact Or.inl (h.pagesSub u' hu)
          · exact Or.inr hu
        · intro p hp
          simp only [List.mem_append, List.mem_singleton] at hp
          rcases hp with hp | hp
          · exact h.pagesDepth p hp
          · subst hp
            simpa using hdepth'
        · intro p hp
          simp only [List.mem_append, List.mem_singleton] at hp
          rcases hp with hp | hp
          · exact h.pagesHash p hp
          · subst hp
            rfl
        · simpa using Nat.succ_le_of_lt hpages'
      split
      · show PwInv cfg (PwCall.state (PwCall.ok _))
        refine foldl_pwinv cfg ?_ _ _ h2
        intro acc l hacc
        split
        · exact hacc
        split
        · have hstep := ih l (depth + 1) acc.1 hacc
          split
          · rename_i s' hcall
            rw [hcall] at hstep
            exact hstep
          · rename_i s' hcall
            rw [hcall] at hstep
            exact hstep.errorsAppend _
        · exact hacc
      · exact h2

theorem runPw_inv (cfg : CrawlConfig) (classify : String → Option String) (w : World)
    (fuel : Nat) : PwInv cfg (runPw cfg classify w fuel) := by
  refine pwCrawlUrl_inv cfg classify w fuel (LinkOut.plainUrl cfg.startUrl) 0
    CrawlState.init ?_
  refine ⟨?_, ?_, ?_, ?_, ?_, ?_⟩ <;>
    simp [CrawlState.init, CrawlState.pageUrls, CrawlState.errorUrls]

/-! Derived facts about every reachable state of either strategy. -/

theorem fast_records_le_visited {cfg : CrawlConfig} {s : FastState} (h : FastInv cfg s) :
    s.crawl.pages.length + s.crawl.errors.length ≤ s.crawl.visited.length := by
  have hnd : (s.crawl.pageUrls ++ s.crawl.errorUrls).Nodup := h.claimedNodup.of_append_left
  have hsub : (s.crawl.pageUrls ++ s.crawl.errorUrls) ⊆ s.crawl.visited := fun a ha =>
    h.claimedSub a (List.mem_append_left _ ha)
  have hlen := (List.subperm_of_subset hnd hsub).length_le
  simpa [CrawlState.pageUrls, CrawlState.errorUrls] using hlen

theorem fast_pages_urlHash_nodup {cfg : CrawlConfig} {s : FastState} (h : FastInv cfg s) :
    (s.crawl.pages.map CrawledPage.urlHash).Nodup := by
  have hP : s.crawl.pageUrls.Nodup := h.claimedNodup.of_append_left.of_append_left
  have hmap : s.crawl.pages.map CrawledPage.urlHash = s.crawl.pages.map CrawledPage.url :=
    List.map_congr_left (fun p hp => h.pagesHash p hp)
  rw [hmap]
  exact hP

theorem pw_pages_urlHash_nodup {cfg : CrawlConfig} {s : CrawlState} (h : PwInv cfg s) :
    (s.pages.map CrawledPage.urlHash).Nodup := by
  have hP : s.pageUrls.Nodup := h.pagesNodup
  have hmap : s.pages.map CrawledPage.urlHash = s.pages.map CrawledPage.url :=
    List.map_congr_left (fun p hp => h.pagesHash p hp)
  rw [hmap]
  exact hP

/-! Claim theorems. -/

/-- C1 (amended): aiohttp returns a response for every HTTP status, so an
HTTP error status is not an exception: the response of the first attempt
is used, no retry is triggered by any status code (a retry after the first
404 response would surface the failure message of the later attempts), and
a run whose every fetch answers 500 ends with one visited URL, one page
whose status code is 500 and zero errors, with the job completing
normally. -/
theorem claim1_http_status_is_page_not_failure :
    fetchWithRetry (fun i => world500 exHome i) =
      FetchOutcome.success 500 "text/html" emptyDoc ∧
    fetchWithRetry (fun i => world404 exHome i) =
      FetchOutcome.success 404 "text/html" emptyDoc ∧
    (runFast exCfg10 classifyNone world500 rootSched).crawl.counters =
      ⟨1, 1, 0⟩ ∧
    (runFast exCfg10 classifyNone world500 rootSched).crawl.pages.map
      CrawledPage.statusCode = [500] ∧
    (runFast exCfg10 classifyNone world404 rootSched).crawl.counters = ⟨1, 1, 0⟩ := by
  decide

/-- C1 counterexample: with every fetch answering HTTP 500, the run ends
with pagesCrawled 1 and pagesFailed 0, not pagesCrawled 0 and
pagesFailed 1 as the claim states. -/
theorem claim1_counterexample :
    (runFast exCfg10 classifyNone world500 rootSched).crawl.counters.totalDiscovered = 1 ∧
    (runFast exCfg10 classifyNone world500 rootSched).crawl.counters.totalCrawled = 1 ∧
    (runFast exCfg10 classifyNone world500 rootSched).crawl.counters.totalFailed = 0 := by
  decide

/-- C2 (amended): on every control-flow path of either crawl entry point
the acquired resources are closed at least once (never leaked), and the
static session is closed exactly once on every path that is not a
stopped run; exactly-once fails on the rendered success path and on
stopped runs, where close is invoked again on already-closed handles. -/
theorem claim2_resources_closed_at_least_once :
    (∀ p : PwRunPath,
      (pwCrawlTrace p).count ResEvent.contextOpen ≤
        (pwCrawlTrace p).count ResEvent.contextClose ∧
      (pwCrawlTrace p).count ResEvent.browserLaunch ≤
        (pwCrawlTrace p).count ResEvent.browserClose) ∧
    (∀ p : FastRunPath,
      (fastCrawlTrace p).count ResEvent.sessionOpen ≤
        (fastCrawlTrace p).count ResEvent.sessionClose ∧
      (p ≠ FastRunPath.stopped →
        (fastCrawlTrace p).count ResEvent.sessionClose =
          (fastCrawlTrace p).count ResEvent.sessionOpen)) := by
  constructor
  · intro p
    cases p <;> exact ⟨by decide, by decide⟩
  · intro p
    cases p with
    | sessionCreateFails => exact ⟨by decide, fun _ => by decide⟩
    | sessionOk => exact ⟨by decide, fun _ => by decide⟩
    | stopped => exact ⟨by decide, fun hcontra => absurd rfl hcontra⟩

/-- C2 witness: the amended theorem applied to the plain successful path
of the static strategy. -/
theorem claim2_witness :
    (fastCrawlTrace FastRunPath.sessionOk).count ResEvent.sessionClose =
      (fastCrawlTrace FastRunPath.sessionOk).count ResEvent.sessionOpen :=
  (claim2_resources_closed_at_least_once.2 FastRunPath.sessionOk).2 (by decide)

/-- C2 counterexample: on the success path PlaywrightCrawler.crawl closes
the browsing context and the browser twice (once in the try block, once in
the finally block), and a stopped static run closes the session twice, so
the resources are not closed exactly once. -/
theorem claim2_counterexample :
    (pwCrawlTrace PwRunPath.runOk).count ResEvent.contextClose = 2 ∧
    (pwCrawlTrace PwRunPath.runOk).count ResEvent.browserClose = 2 ∧
    (fastCrawlTrace FastRunPath.stopped).count ResEvent.sessionClose = 2 := by
  decide

/-- C3 (amended): in both strategies every recorded page has depth at most
max_depth under every schedule, and the sequential rendered strategy also
keeps the page count at most max_pages; the static strategy does not keep
that bound under concurrent schedules (see the counterexample). -/
theorem claim3_depth_bound_and_sequential_page_bound :
    (∀ (cfg : CrawlConfig) (classify : String → Option String) (w : World)
        (sched : List FastTask),
      ∀ p ∈ (runFast cfg classify w sched).crawl.pages, p.depth ≤ cfg.maxDepth) ∧
    (∀ (cfg : CrawlConfig) (classify : String → Option String) (w : World) (fuel : Nat),
      (∀ p ∈ (runPw cfg classify w fuel).pages, p.depth ≤ cfg.maxDepth) ∧
      (runPw cfg classify w fuel).pages.length ≤ cfg.maxPages) :=
  ⟨fun cfg classify w sched => (runFast_inv cfg classify w sched).pagesDepth,
   fun cfg classify w fuel =>
     ⟨(runPw_inv cfg classify w fuel).pagesDepth, (runPw_inv cfg classify w fuel).pagesCount⟩⟩

/-- C3 witness: the depth bound applied to the page of a concrete
one-page run. -/
theorem claim3_witness :
    (fastParsePage classifyNone exHome 200 "text/html" rootDoc 0).depth ≤
      exCfg10.maxDepth :=
  claim3_depth_bound_and_sequential_page_bound.1 exCfg10 classifyNone exWorld rootSched
    (fastParsePage classifyNone exHome 200 "text/html" rootDoc 0) (by decide)

/-- C3 counterexample: with max_pages 2, the schedule in which both child
fetches pass the budget check before either completes (the schedule the
event loop produces when the fetches resolve in dispatch order) ends with
3 pages: the budget is checked before the fetch suspends and never
re-checked at append time. -/
theorem claim3_counterexample :
    exCfg.maxPages = 2 ∧
    (runFast exCfg classifyNone exWorld exSched).crawl.pages.length = 3 := by
  decide

/-- C4: under every schedule of the static strategy no two recorded pages
share a URL fingerprint, the visited set never holds a URL twice (the URL
is marked visited before its fetch is dispatched, so no URL is fetched
twice), and the same fingerprint distinctness holds for the rendered
strategy. -/
theorem claim4_no_duplicate_fingerprints (cfg : CrawlConfig)
    (classify : String → Option String) (w : World) (sched : List FastTask) (fuel : Nat) :
    ((runFast cfg classify w sched).crawl.pages.map CrawledPage.urlHash).Nodup ∧
    (runFast cfg classify w sched).crawl.visited.Nodup ∧
    (runFast cfg classify w sched).claimedUrls.Nodup ∧
    ((runPw cfg classify w fuel).pages.map CrawledPage.urlHash).Nodup :=
  ⟨fast_pages_urlHash_nodup (runFast_inv cfg classify w sched),
   (runFast_inv cfg classify w sched).visitedNodup,
   (runFast_inv cfg classify w sched).claimedNodup,
   pw_pages_urlHash_nodup (runPw_inv cfg classify w fuel)⟩

/-- C5: two raised failures followed by a success give the success and no
error; three raised failures reraise the last failure; any URL has at most
one record (page or error) across the whole run; and in a concrete run
where /a raises on every attempt the crawl still records the other pages
and exactly one error for /a. -/
theorem claim5_retry_semantics :
    (∀ (w : Nat → FetchOutcome) (st : Nat) (ct : String) (doc : Doc) (m0 m1 : String),
      w 0 = FetchOutcome.failure m0 → w 1 = FetchOutcome.failure m1 →
      w 2 = FetchOutcome.success st ct doc →
      fetchWithRetry w = FetchOutcome.success st ct doc) ∧
    (∀ (w : Nat → FetchOutcome) (m0 m1 m2 : String),
      w 0 = FetchOutcome.failure m0 → w 1 = FetchOutcome.failure m1 →
      w 2 = FetchOutcome.failure m2 →
      fetchWithRetry w = FetchOutcome.failure m2) ∧
    (∀ (cfg : CrawlConfig) (classify : String → Option String) (w : World)
        (sched : List FastTask) (u : Url),
      ((runFast cfg classify w sched).crawl.pageUrls ++
        (runFast cfg classify w sched).crawl.errorUrls).count u ≤ 1) ∧
    ((runFast exCfg10 classifyNone exWorldFail exSched).crawl.pages.map CrawledPage.url =
        [exHome, exB] ∧
      (runFast exCfg10 classifyNone exWorldFail exSched).crawl.errors =
        [⟨exA, 1, "connection reset"⟩]) := by
  refine ⟨?_, ?_, ?_, by decide, by decide⟩
  · intro w st ct doc m0 m1 h0 h1 h2
    simp [fetchWithRetry, retryFrom, h0, h1, h2]
  · intro w m0 m1 m2 h0 h1 h2
    simp [fetchWithRetry, retryFrom, h0, h1, h2]
  · intro cfg classify w sched u
    exact List.nodup_iff_count_le_one.mp
      (runFast_inv cfg classify w sched).claimedNodup.of_append_left u

/-- C5 witness: the retry wrapper applied to a concrete attempt map that
fails twice and succeeds on the third attempt. -/
theorem claim5_witness :
    fetchWithRetry (fun i =>
      if i < 2 then FetchOutcome.failure "boom"
      else FetchOutcome.success 200 "text/html" emptyDoc) =
    FetchOutcome.success 200 "text/html" emptyDoc :=
  claim5_retry_semantics.1 _ 200 "text/html" emptyDoc "boom" "boom"
    (by decide) (by decide) (by decide)

/-- C6: the static strategy keeps crawled plus failed at most discovered
under every schedule; the rendered strategy breaks the bound on any site
whose start page has an internal link, because the recursive call
receives a link dictionary, the visited-set membership test raises
TypeError before the child try block is entered, and the parent except
handler then records an error for the start URL that already has a page:
discovered stays 1 while crawled plus failed reaches 2. -/
theorem claim6_crawled_plus_failed_le_discovered :
    (∀ (cfg : CrawlConfig) (classify : String → Option String) (w : World)
        (sched : List FastTask),
      (runFast cfg classify w sched).crawl.counters.totalCrawled +
          (runFast cfg classify w sched).crawl.counters.totalFailed ≤
        (runFast cfg classify w sched).crawl.counters.totalDiscovered) ∧
    (runPw exCfg10 classifyNone exWorld 5).counters = ⟨1, 1, 1⟩ ∧
    (runPw exCfg10 classifyNone exWorld 5).counters.totalDiscovered <
      (runPw exCfg10 classifyNone exWorld 5).counters.totalCrawled +
        (runPw exCfg10 classifyNone exWorld 5).counters.totalFailed := by
  refine ⟨?_, by decide, by decide⟩
  intro cfg classify w sched
  simpa [CrawlState.counters] using
    fast_records_le_visited (runFast_inv cfg classify w sched)

/-- C7 (amended): in both strategies a link is kept exactly when its
anchor href, resolved against the page URL with urljoin, lands on the
page host; the rendered strategy records the stripped anchor text with the
resolved URL (empty text as null), while the static strategy records only
the bare resolved URL and no anchor text field at all. -/
theorem claim7_link_extraction (pageUrl : Url) (anchors : List Anchor) (l : LinkOut) :
    (l ∈ pwExtractLinks pageUrl anchors ↔
      ∃ a ∈ anchors, (urljoin pageUrl a.href).host = pageUrl.host ∧
        l = LinkOut.withAnchor (urljoin pageUrl a.href)
          (if (pyStrip a.text).data.isEmpty then none else some (pyStrip a.text))) ∧
    (l ∈ fastExtractLinks pageUrl anchors ↔
      ∃ a ∈ anchors, (urljoin pageUrl a.href).host = pageUrl.host ∧
        l = LinkOut.plainUrl (urljoin pageUrl a.href)) ∧
    (∀ l2 ∈ fastExtractLinks pageUrl anchors, l2.carriesAnchorText = false) := by
  refine ⟨?_, ?_, ?_⟩
  · rw [pwExtractLinks, List.mem_filterMap]
    constructor
    · rintro ⟨a, ha, hfa⟩
      refine ⟨a, ha, ?_⟩
      by_cases hc : (urljoin pageUrl a.href).host = pageUrl.host
      · simp only [hc, if_pos, Option.some.injEq] at hfa
        exact ⟨hc, hfa.symm⟩
      · simp [hc] at hfa
    · rintro ⟨a, ha, hc, hl⟩
      exact ⟨a, ha, by simp [hc, hl]⟩
  · rw [fastExtractLinks, List.mem_filterMap]
    constructor
    · rintro ⟨a, ha, hfa⟩
      refine ⟨a, ha, ?_⟩
      by_cases hc : (urljoin pageUrl a.href).host = pageUrl.host
      · simp only [hc, if_pos, Option.some.injEq] at hfa
        exact ⟨hc, hfa.symm⟩
      · simp [hc] at hfa
    · rintro ⟨a, ha, hc, hl⟩
      exact ⟨a, ha, by simp [hc, hl]⟩
  · intro l2 hl2
    rw [fastExtractLinks, List.mem_filterMap] at hl2
    obtain ⟨a, _, hfa⟩ := hl2
    by_cases hc : (urljoin pageUrl a.href).host = pageUrl.host
    · simp only [hc, if_pos, Option.some.injEq] at hfa
      rw [← hfa]
      rfl
    · simp [hc] at hfa

/-- C7 witness: the extraction characterization applied to a concrete
anchor kept by both strategies. -/
theorem claim7_witness :
    LinkOut.plainUrl exA ∈ fastExtractLinks exHome [⟨Href.sitePath "/a" none, "  Hello "⟩] :=
  ((claim7_link_extraction exHome [⟨Href.sitePath "/a" none, "  Hello "⟩]
      (LinkOut.plainUrl exA)).2.1).mpr
    ⟨⟨Href.sitePath "/a" none, "  Hello "⟩, by decide, by decide, by decide⟩

/-- C7 counterexample: on a concrete anchor with text Hello, the static
strategy keeps the link as a bare URL without any anchor text, so the
claim that both strategies record the trimmed anchor text alongside the
target is false; only the rendered strategy records it. -/
theorem claim7_counterexample :
    fastExtractLinks exHome [⟨Href.sitePath "/a" none, "  Hello "⟩] =
      [LinkOut.plainUrl exA] ∧
    (LinkOut.plainUrl exA).carriesAnchorText = false ∧
    pwExtractLinks exHome [⟨Href.sitePath "/a" none, "  Hello "⟩] =
      [LinkOut.withAnchor exA (some "Hello")] := by
  decide

/-- C8 (amended): urljoin resolves a relative reference against the
referring page (inheriting scheme and host) but keeps the fragment of the
reference: no fragment stripping happens anywhere, so two links that
differ only in their fragment are two distinct URLs, each visited and each
yielding its own PageRecord. -/
theorem claim8_fragments_not_stripped :
    (∀ (base : Url) (p : String) (f : Option String),
      urljoin base (Href.sitePath p f) =
        { scheme := base.scheme, host := base.host, path := p, fragment := f }) ∧
    (∀ (base : Url) (f : String),
      urljoin base (Href.fragOnly f) = { base with fragment := some f }) ∧
    urljoin exHome (Href.sitePath "/p" (some "a")) ≠
      urljoin exHome (Href.sitePath "/p" (some "b")) ∧
    (runFast exCfg10 classifyNone fragWorld fragSched).crawl.pages.map CrawledPage.url =
      [exHome, exPA, exPB] := by
  refine ⟨fun base p f => rfl, fun base f => rfl, by decide, by decide⟩

/-- C8 counterexample: two links to the same path that differ only in
their fragment resolve to distinct URLs, are both visited, and produce two
PageRecords, not one. -/
theorem claim8_counterexample :
    exPA ≠ exPB ∧
    exPA.path = exPB.path ∧
    (runFast exCfg10 classifyNone fragWorld fragSched).crawl.visited =
      [exHome, exPA, exPB] ∧
    (runFast exCfg10 classifyNone fragWorld fragSched).crawl.pages.length = 3 := by
  decide

/-- C9 (amended): a truthy html lang of at most 5 characters is reduced to
the part before the first dash; a falsy or over-long value triggers
statistical detection, which runs only when the stripped text has at least
20 characters; when detection yields nothing the language falls back to
the raw html lang value (null when it was absent), never to the string
unknown. -/
theorem claim9_language_resolution (cl : String → Option String) (l : String)
    (lf : Option String) (text : String) :
    (langTruthy (some l) = true → l.length ≤ 5 →
      resolveLang cl (some l) text = some (pySplitDashHead l)) ∧
    ((langTruthy lf = false ∨ 5 < (lf.getD "").length) →
      resolveLang cl lf text =
        (match detect_language cl text with
         | some d => some d
         | none => lf)) ∧
    ((pyStrip text).length < 20 → detect_language cl text = none) ∧
    (20 ≤ (pyStrip text).length → detect_language cl text = cl text) := by
  refine ⟨?_, ?_, ?_, ?_⟩
  · intro h1 h2
    have hnc : ¬((!langTruthy (some l) ||
        decide (((some l).getD "").length > 5)) = true) := by
      simp only [h1, Bool.not_true, Bool.false_or, Option.getD_some, decide_eq_true_eq]
      omega
    rw [resolveLang, if_neg hnc]
  · intro h1
    have hc : (!langTruthy lf || decide ((lf.getD "").length > 5)) = true := by
      rcases h1 with h1 | h1 <;> simp [h1]
    rw [resolveLang.eq_def, if_pos hc]
  · intro h1
    rw [detect_language, if_pos h1]
  · intro h1
    rw [detect_language, if_neg (Nat.not_lt.mpr h1)]

/-- C9 witness: the resolution rule applied to the concrete value en-US,
which is reduced to its primary subtag en. -/
theorem claim9_witness :
    resolveLang classifyNone (some "en-US") "hi" = some "en" := by
  have h := (claim9_language_resolution classifyNone "en-US" none "hi").1
    (by decide) (by decide)
  rw [h]
  decide

/-- C9 counterexample: when the html lang is absent and the text is too
short for detection the recorded language is null, and when the html lang
is over-long and detection yields nothing the raw over-long value is kept;
the string unknown is never produced. -/
theorem claim9_counterexample :
    resolveLang classifyNone none "hi" = none ∧
    resolveLang classifyNone (some "x-klingon") "hi" = some "x-klingon" ∧
    resolveLang classifyNone none "hi" ≠ some "unknown" := by
  decide

/-- C10: the rendered strategy stamps the constant text/html as the
content type of every page it parses, whatever the server returned, while
the static strategy stores the Content-Type header value of the response
unchanged. -/
theorem claim10_content_type (classify : String → Option String) (url : Url) (st : Nat)
    (ct : String) (doc : Doc) (depth : Nat) :
    (pwParsePage classify url st doc depth).contentType = "text/html" ∧
    (fastParsePage classify url st ct doc depth).contentType = ct :=
  ⟨rfl, rfl⟩

/-- C4 witness: fingerprint distinctness on the pages of a concrete
three-page run. -/
theorem claim4_witness :
    ((runFast exCfg10 classifyNone exWorld exSched).crawl.pages.map
      CrawledPage.urlHash).Nodup :=
  (claim4_no_duplicate_fingerprints exCfg10 classifyNone exWorld exSched 5).1

/-- C8 witness: the resolution rule applied to a concrete host-relative
reference with a fragment. -/
theorem claim8_witness :
    urljoin exHome (Href.sitePath "/x" (some "f")) =
      { scheme := "http", host := "ex.com", path := "/x", fragment := some "f" } :=
  claim8_fragments_not_stripped.1 exHome "/x" (some "f")

/-- C10 witness: the content-type stamp on a concrete rendered page. -/
theorem claim10_witness :
    (pwParsePage classifyNone exHome 200 emptyDoc 0).contentType = "text/html" :=
  (claim10_content_type classifyNone exHome 200 "application/pdf" emptyDoc 0).1

end SEOCrawl
